import Mathlib

/-!
Verification of the fridge meal-plan generator (`fridge_recipe_generator.py`)
against its natural-language specification.

The Python program is shallowly embedded below:
* an ingredient record (a Python dict) becomes the structure `Item`;
* Python values that may sit in the `expiry` field become the inductive
  `ExpVal` (text, `datetime.date`, `pandas.Timestamp`, JSON number, `None`);
* the JSON backing file becomes `BackingFile` (absent / empty / a parsed
  record list — `json.dumps`/`json.loads` faithfully round-trip the
  structured data, so the file is modelled at the structured level);
* exceptions raised while loading become the `Except` error channel, with
  the spec's name `MalformedRecordError` for an unparseable date;
* the Streamlit session state and the OpenAI call become `AppState`,
  `CallOutcome` and `generate_plan`, the external call being an explicit
  request-to-outcome function.
-/

/-- The character for decimal digit `n % 10` (used to render dates the way
Python's `str(date)` does, zero-padded). -/
def digitChar (n : Nat) : Char := Char.ofNat (48 + n % 10)

/-- Numeric value of a decimal digit character. -/
def digitVal (c : Char) : Nat := c.toNat - 48

/-- A Python `datetime.date`: a plain calendar date, no time of day. -/
structure PDate where
  year : Nat
  month : Nat
  day : Nat
deriving DecidableEq, Repr

/-- Gregorian leap-year rule (as enforced by Python's `datetime.date`). -/
def isLeap (y : Nat) : Bool := (y % 4 == 0 && y % 100 != 0) || y % 400 == 0

/-- Number of days in a month (as enforced by Python's `datetime.date`). -/
def daysInMonth (y m : Nat) : Nat :=
  if m == 2 then (if isLeap y then 29 else 28)
  else if m == 4 || m == 6 || m == 9 || m == 11 then 30
  else 31

/-- The range check Python's `datetime.date` constructor performs. -/
def PDate.validB (d : PDate) : Bool :=
  decide (1 ≤ d.year) && decide (d.year ≤ 9999) && decide (1 ≤ d.month) &&
    decide (d.month ≤ 12) && decide (1 ≤ d.day) &&
    decide (d.day ≤ daysInMonth d.year d.month)

/-- A date the Python `datetime.date` constructor accepts. -/
def PDate.valid (d : PDate) : Prop := d.validB = true

instance (d : PDate) : Decidable d.valid := inferInstanceAs (Decidable (d.validB = true))

/-- `YYYY<sep>MM<sep>DD` rendering of a calendar date. -/
def ymdString (sep : Char) (d : PDate) : String :=
  String.mk [digitChar (d.year / 1000), digitChar (d.year / 100),
    digitChar (d.year / 10), digitChar d.year, sep,
    digitChar (d.month / 10), digitChar d.month, sep,
    digitChar (d.day / 10), digitChar d.day]

/-- Python `str(date)`: the ISO calendar-date string `YYYY-MM-DD`. -/
def dateStr (d : PDate) : String := ymdString '-' d

/-- Parse a character list of shape `YYYY<sep>MM<sep>DD`, validating the
date's ranges. -/
def parseYmdList (sep : Char) : List Char → Option PDate
  | [y1, y2, y3, y4, s1, m1, m2, s2, d1, d2] =>
    if s1 == sep && s2 == sep && y1.isDigit && y2.isDigit && y3.isDigit &&
        y4.isDigit && m1.isDigit && m2.isDigit && d1.isDigit && d2.isDigit then
      let dte : PDate :=
        ⟨((digitVal y1 * 10 + digitVal y2) * 10 + digitVal y3) * 10 + digitVal y4,
          digitVal m1 * 10 + digitVal m2, digitVal d1 * 10 + digitVal d2⟩
      if dte.validB then some dte else none
    else none
  | _ => none

/-- Parse `YYYY<sep>MM<sep>DD`, validating the date's ranges. -/
def parseYmd (sep : Char) (s : String) : Option PDate := parseYmdList sep s.data

/-- `datetime.date.fromisoformat`: the strict ISO calendar-date parse used by
`load_inventory` (modelled for its primary `YYYY-MM-DD` form). -/
def fromisoformat (s : String) : Option PDate := parseYmd '-' s

/-- A `pandas.Timestamp`: a calendar date plus a time of day. -/
structure PdTimestamp where
  date : PDate
  hour : Nat
  minute : Nat
  second : Nat
deriving DecidableEq, Repr

/-- Two-digit zero-padded rendering, e.g. for time-of-day components. -/
def pad2 (n : Nat) : String := String.mk [digitChar (n / 10), digitChar n]

/-- Python `str(pandas.Timestamp)`: `YYYY-MM-DD HH:MM:SS`. -/
def timestampStr (t : PdTimestamp) : String :=
  dateStr t.date ++ " " ++ pad2 t.hour ++ ":" ++ pad2 t.minute ++ ":" ++ pad2 t.second

/-- Models the external `pandas.to_datetime` parser (a third-party library,
not part of this repository): the best-effort generic date parse, modelled
here as accepting slash-separated calendar dates `YYYY/MM/DD`; unparseable
text yields `none` (pandas raises). -/
def to_datetime (s : String) : Option PdTimestamp :=
  (parseYmd '/' s).map fun d => ⟨d, 0, 0, 0⟩

/-- A JSON / Python number: Python keeps `int` and `float` distinct, and
`str()` renders them differently. Floats are modelled as the decimal
`m · 10⁻ᵉ` that Python's shortest round-trip `repr` prints. -/
inductive Qty where
  | intQ (n : Int)
  | floatQ (m : Int) (e : Nat)
deriving DecidableEq, Repr

/-- Python `str()` of a number: `str(3)` is `"3"`, `str(3.0)` is `"3.0"`,
`str(2.5)` is `"2.5"`. -/
def qtyStr : Qty → String
  | .intQ n => toString n
  | .floatQ m e =>
    if e == 0 then toString m ++ ".0"
    else
      let ds := Nat.toDigits 10 m.natAbs
      let ds := if ds.length ≤ e then List.replicate (e + 1 - ds.length) '0' ++ ds else ds
      (if m < 0 then "-" else "") ++ String.mk (ds.take (ds.length - e)) ++ "." ++
        String.mk (ds.drop (ds.length - e))

/-- A Python value that can sit in a record's `expiry` field. `vnull` models
JSON `null` as well as an absent key (for both, `item.get("expiry")` yields
`None` and the load loop leaves the record untouched). -/
inductive ExpVal where
  | vstr (s : String)
  | vdate (d : PDate)
  | vts (t : PdTimestamp)
  | vnum (q : Qty)
  | vnull
deriving DecidableEq, Repr

/-- Python `str()` of an expiry value, as interpolated into the prompt. -/
def expStr : ExpVal → String
  | .vstr s => s
  | .vdate d => dateStr d
  | .vts t => timestampStr t
  | .vnum q => qtyStr q
  | .vnull => "None"

/-- One ingredient record (a Python dict with these five keys). -/
structure Item where
  name : String
  quantity : Qty
  unit : String
  expiry : ExpVal
  category : String
deriving DecidableEq, Repr

/-- The unit selectbox options of the add-ingredient form. -/
def unitOptions : List String := ["g", "kg", "lb", "oz", "ml", "L", "个", "片", "杯", "勺", "份"]

/-- The category selectbox options of the add-ingredient form. -/
def categoryOptions : List String := ["肉", "菜", "主食", "水果", "酱料", "饮料"]

/-- The Store error for a persisted record whose date cannot be parsed by
either rule (in the source, the uncaught parse exception that aborts
`load_inventory`; the spec's taxonomy names it `MalformedRecordError`). -/
structure MalformedRecordError where
  msg : String
deriving DecidableEq, Repr

/-- The backing file `inventory.json`: absent, present but empty, or holding
a JSON array of records (modelled at the structured level; `json.dumps` with
`ensure_ascii=False` and `json.loads` round-trip text and numbers exactly). -/
inductive BackingFile where
  | absent
  | empty
  | content (items : List Item)
deriving DecidableEq, Repr

/-- How `json.dumps(..., default=str)` serialises an expiry value: `date`
and `Timestamp` objects are not JSON-serialisable, so `default=str` renders
them with `str()`; text, numbers and `null` are stored natively. -/
def encodeExpiry : ExpVal → ExpVal
  | .vdate d => .vstr (dateStr d)
  | .vts t => .vstr (timestampStr t)
  | e => e

/-- Serialisation of one record by `save_inventory`. -/
def encodeItem (r : Item) : Item := { r with expiry := encodeExpiry r.expiry }

/-- `save_inventory`: overwrites the backing file with the JSON rendering of
the full inventory (`json.dumps([])` is the non-empty text `"[]"`, so the
result is always `content`). -/
def save_inventory (inv : List Item) : BackingFile := .content (inv.map encodeItem)

/-- The per-record expiry normalization inside `load_inventory`'s loop:
text is parsed with `date.fromisoformat`, falling back to
`pandas.to_datetime(...).date()`; a `pandas.Timestamp` is truncated with
`.date()`; everything else is left untouched. A text expiry neither parser
accepts raises (modelled as `Except.error`). -/
def normalizeExpiry : ExpVal → Except MalformedRecordError ExpVal
  | .vstr s =>
    match fromisoformat s with
    | some d => .ok (.vdate d)
    | none =>
      match to_datetime s with
      | some t => .ok (.vdate t.date)
      | none => .error ⟨s⟩
  | .vts t => .ok (.vdate t.date)
  | e => .ok e

/-- Normalization of one loaded record. -/
def normalizeItem (r : Item) : Except MalformedRecordError Item :=
  (normalizeExpiry r.expiry).map fun e => { r with expiry := e }

/-- `load_inventory`'s loop over the parsed records: the first record whose
date cannot be parsed aborts the whole load. -/
def loadItems : List Item → Except MalformedRecordError (List Item)
  | [] => .ok []
  | r :: rs =>
    match normalizeItem r with
    | .error e => .error e
    | .ok r' =>
      match loadItems rs with
      | .error e => .error e
      | .ok rs' => .ok (r' :: rs')

/-- `load_inventory`: an absent or zero-size file yields the empty
inventory; otherwise every record's expiry is normalized in order. -/
def load_inventory : BackingFile → Except MalformedRecordError (List Item)
  | .absent => .ok []
  | .empty => .ok []
  | .content items => loadItems items

/-- Python `str.strip()`: drop surrounding whitespace. -/
def pyStrip (s : String) : String :=
  ⟨((s.data.dropWhile Char.isWhitespace).reverse.dropWhile Char.isWhitespace).reverse⟩

/-- The add-ingredient form handler: the record is appended (with the name
stripped) only when the submitted `name` is truthy, i.e. not the empty
string; the inventory is then saved. This models lines 77–88 of the source
(`if cols[5].form_submit_button("添加") and name:`). -/
def add_ingredient (inv : List Item) (name : String) (qty : Qty) (unit : String)
    (expiry : PDate) (category : String) : List Item :=
  if name = "" then inv
  else inv ++ [{ name := pyStrip name, quantity := qty, unit := unit,
                 expiry := .vdate expiry, category := category }]

/-- Python `"\n".join`. -/
def joinLines : List String → String
  | [] => ""
  | [s] => s
  | s :: ss => s ++ "\n" ++ joinLines ss

/-- One inventory line of the prompt:
`- {name} ({quantity}{unit}, {category}, expiring {expiry})`. -/
def invLine (i : Item) : String :=
  "- " ++ i.name ++ " (" ++ qtyStr i.quantity ++ i.unit ++ ", " ++ i.category ++
    ", expiring " ++ expStr i.expiry ++ ")"

/-- `inv_text`: the newline-joined inventory listing. -/
def inv_text (inv : List Item) : String := joinLines (inv.map invLine)

/-- The prompt text before the interpolated day count. -/
def promptHead : String := "You are a registered dietitian and creative home‑cook.\nDesign a "

/-- The fixed prompt text between the day count and the strictness clause. -/
def promptMid : String := "-day meal plan for one male and one female in their 20s.\n\n【总体要求】\n1. 每天必须包含 早餐、午餐、晚餐。\n2. 餐食需营养均衡：足量蛋白质、复合碳水、蔬菜与健康脂肪；晚餐更轻盈、易消化。\n3. 可使用空气炸锅（首选）、榨汁机、豆浆机；尽量采用低油方式减少油烟。\n4. **避免把所有蔬菜都切成丝**，可根据需要切块、切片、切丁。\n5. 用中文输出，采用 Markdown 格式：天次标题和菜名加粗，条目用列表符号。\n\n【菜品格式（Markdown 示范）】\n**菜名**\n  - 食材（g/ml）\n  - 做法：步骤 1…步骤 3–5\n\n【配料与库存】\n下方是冰箱库存清单，请先对比再编排菜单，遵守以下规则：\n"

/-- The strict-mode instruction: do not exceed any on-hand stock. -/
def strictClause : String := "  - 不得超出任何食材库存；如有超出请调整菜品使总用量不超库存。\n"

/-- The non-strict instruction: add a clearly labelled
additional-ingredients-needed section when stock falls short. -/
def addClause : String := "  - 若所需量超出库存，请在文末新增章节 **需购买的额外食材**，列出不足食材及数量。\n"

/-- The fixed prompt text after the strictness clause (including the
`+ "\n"` of the source) up to the inventory listing. -/
def promptTail : String := "\n【每日总结】\n每天菜单后，用 1–2 句话说明该日如何满足营养需求。\n\n⚠️ 不要在每道菜后输出类似“【冰箱库存：米饭1000 g，使用后剩 600 g】”的提示。\n\n=== 冰箱库存 ===\n"

/-- The prompt builder (source lines 126–161): fixed text, the interpolated
day count, the strictness-selected clause, and the inventory listing. -/
def prompt (inv : List Item) (days : Nat) (strict : Bool) : String :=
  promptHead ++ toString days ++ promptMid ++
    (if strict then strictClause else addClause) ++ promptTail ++ inv_text inv

/-- Substring containment: `pat` occurs contiguously inside `s`. -/
def containsStr (s pat : String) : Prop := pat.data <:+: s.data

instance containsStrDecidable (s pat : String) : Decidable (containsStr s pat) :=
  inferInstanceAs (Decidable (pat.data <:+: s.data))

/-- The Streamlit session state the generation flow can observe. -/
structure AppState where
  inventory : List Item
  api_key : Option String
deriving DecidableEq, Repr

/-- Outcome of one `client.chat.completions.create` call: the generated
text, or the message of whatever exception the call raised (transport,
authentication, quota, malformed response, ...). -/
inductive CallOutcome where
  | success (text : String)
  | failure (msg : String)
deriving DecidableEq, Repr

/-- What the generate-plan handler renders to the page. -/
inductive Displayed where
  | markdown (text : String)
  | errorBox (text : String)
deriving DecidableEq, Repr

/-- The generate-plan button handler (source lines 124–177): build the
prompt from the session inventory, issue the request, and either render the
stripped response or catch the exception and render
`st.error(f"OpenAI 调用失败：{e}")`. The external call is an explicit
prompt-to-outcome function; the handler returns the (unchanged) session
state together with what was displayed. -/
def generate_plan (st : AppState) (days : Nat) (strict : Bool)
    (call : String → CallOutcome) : AppState × Displayed :=
  match call (prompt st.inventory days strict) with
  | .success text => (st, .markdown (pyStrip text))
  | .failure msg => (st, .errorBox ("OpenAI 调用失败：" ++ msg))

/-- Is the expiry value one of the two shapes (`str` text, `pandas.Timestamp`)
that `load_inventory`'s loop rewrites? Everything else falls through the
`isinstance` chain untouched. -/
def ExpVal.isStrOrTs : ExpVal → Bool
  | .vstr _ => true
  | .vts _ => true
  | _ => false

/-- The single record of the spec's scenario:
`{name: "鸡胸肉", quantity: 300, unit: "g", category: "肉", expiry: 2025-06-01}`. -/
def chickenItem : Item :=
  { name := "鸡胸肉", quantity := .intQ 300, unit := "g",
    expiry := .vdate ⟨2025, 6, 1⟩, category := "肉" }

/-- A stored record whose expiry text neither date parser accepts. -/
def badDateItem : Item :=
  { name := "鸡胸肉", quantity := .intQ 300, unit := "g",
    expiry := .vstr "not-a-date", category := "肉" }

/-- A stored inventory whose expiry values are a number and a null — the
shapes `load_inventory`'s loop passes through untouched. -/
def oddInventory : List Item :=
  [{ name := "苹果", quantity := .intQ 3, unit := "个",
     expiry := .vnum (.intQ 5), category := "水果" },
   { name := "米饭", quantity := .floatQ 10005 1, unit := "g",
     expiry := .vnull, category := "主食" }]

/-- Does the record's expiry hold a valid calendar date? -/
def expiryIsValidDate : ExpVal → Bool
  | .vdate d => d.validB
  | _ => false

/-- A valid record in the sense of the spec's data model: non-empty name,
enumerated unit and category, and a calendar-date expiry. -/
def validItem (r : Item) : Prop :=
  r.name ≠ "" ∧ r.unit ∈ unitOptions ∧ r.category ∈ categoryOptions ∧
    expiryIsValidDate r.expiry = true

instance (r : Item) : Decidable (validItem r) :=
  inferInstanceAs (Decidable (_ ∧ _ ∧ _ ∧ _))

/-! ### Helper lemmas: strings, list containment, digits -/

theorem strDataAppend (s t : String) : (s ++ t).data = s.data ++ t.data := by
  cases s; cases t; rfl

theorem infixExtendLeft {α : Type} {p y : List α} (x : List α) (h : p <:+: y) :
    p <:+: x ++ y := by
  obtain ⟨s, t, hst⟩ := h
  exact ⟨x ++ s, t, by rw [← hst]; simp [List.append_assoc]⟩

theorem infixExtendRight {α : Type} {p x : List α} (y : List α) (h : p <:+: x) :
    p <:+: x ++ y := by
  obtain ⟨s, t, hst⟩ := h
  exact ⟨s, t ++ y, by rw [← hst]; simp [List.append_assoc]⟩

theorem infixAppendCases {α : Type} {p x y : List α} (h : p <:+: x ++ y) :
    p <:+: x ∨ p <:+: y ∨
      ∃ i, 0 < i ∧ i < p.length ∧ p.take i <:+ x ∧ p.drop i <+: y := by
  obtain ⟨s, t, hst⟩ := h
  have hst' : s ++ (p ++ t) = x ++ y := by rw [← List.append_assoc]; exact hst
  rcases List.append_eq_append_iff.mp hst' with ⟨a, hx, h2⟩ | ⟨c, _, hy⟩
  · rcases List.append_eq_append_iff.mp h2 with ⟨b, ha, _⟩ | ⟨q, hp, hy2⟩
    · exact Or.inl ⟨s, b, by rw [hx, ha, List.append_assoc]⟩
    · by_cases ha0 : a = []
      · subst ha0
        refine Or.inr (Or.inl ⟨[], t, ?_⟩)
        rw [hy2, hp]; simp
      · by_cases hq0 : q = []
        · subst hq0
          refine Or.inl ⟨s, [], ?_⟩
          rw [hx, hp]; simp
        · refine Or.inr (Or.inr ⟨a.length, ?_, ?_, ?_, ?_⟩)
          · exact List.length_pos.mpr ha0
          · rw [hp, List.length_append]
            have : 0 < q.length := List.length_pos.mpr hq0
            omega
          · rw [hp, List.take_left]
            exact ⟨s, hx.symm⟩
          · rw [hp, List.drop_left]
            exact ⟨t, hy2.symm⟩
  · refine Or.inr (Or.inl ⟨c, t, ?_⟩)
    rw [hy, List.append_assoc]

theorem notInfixAppend {α : Type} {p x y : List α} (hx : ¬ p <:+: x) (hy : ¬ p <:+: y)
    (hs : ∀ i, i < p.length → 0 < i → ¬ (p.take i <:+ x)) : ¬ p <:+: x ++ y := by
  intro h
  rcases infixAppendCases h with h | h | ⟨i, h0, hl, hsx, _⟩
  · exact hx h
  · exact hy h
  · exact hs i hl h0 hsx

theorem notInfixDigitFree {p d : List Char} (hne : p ≠ [])
    (hp : ∀ c ∈ p, c.isDigit = false) (hd : ∀ c ∈ d, c.isDigit = true) :
    ¬ p <:+: d := by
  intro h
  obtain ⟨c, hc⟩ := List.exists_mem_of_ne_nil p hne
  have h1 := hp c hc
  have h2 := hd c (h.subset hc)
  rw [h1] at h2
  exact Bool.false_ne_true h2

theorem notTakeSuffixDigits {p d : List Char} (hne : p ≠ [])
    (hp : ∀ c ∈ p, c.isDigit = false) (hd : ∀ c ∈ d, c.isDigit = true) :
    ∀ i, i < p.length → 0 < i → ¬ (p.take i <:+ d) := by
  intro i _ h0 hsuf
  have hne' : p.take i ≠ [] := by
    rw [Ne, List.take_eq_nil_iff]
    push_neg
    exact ⟨by omega, hne⟩
  obtain ⟨c, hc⟩ := List.exists_mem_of_ne_nil _ hne'
  have h1 := hp c (List.take_subset _ _ hc)
  have h2 := hd c (hsuf.subset hc)
  rw [h1] at h2
  exact Bool.false_ne_true h2

theorem notInfixAppendHead {p x y : List Char} (hx : ¬ p <:+: x) (hy : ¬ p <:+: y)
    (hhead : ∀ c, y.head? = some c → c.isDigit = true)
    (hp : ∀ c ∈ p, c.isDigit = false) : ¬ p <:+: x ++ y := by
  intro h
  rcases infixAppendCases h with h | h | ⟨i, _, hl, _, hpre⟩
  · exact hx h
  · exact hy h
  · have hne : p.drop i ≠ [] := by
      rw [Ne, List.drop_eq_nil_iff]
      omega
    obtain ⟨c, cs, hcons⟩ := List.exists_cons_of_ne_nil hne
    obtain ⟨t, ht⟩ := hpre
    have hyhead : y.head? = some c := by rw [← ht, hcons]; rfl
    have hdig := hhead c hyhead
    have hcp : c ∈ p := by
      have hmem : c ∈ p.drop i := by rw [hcons]; exact List.mem_cons_self _ _
      exact List.drop_subset _ _ hmem
    rw [hp c hcp] at hdig
    exact Bool.false_ne_true hdig

theorem headDigitOfAppend {dstr rest : List Char} (hne : dstr ≠ [])
    (hd : ∀ c ∈ dstr, c.isDigit = true) :
    ∀ c, (dstr ++ rest).head? = some c → c.isDigit = true := by
  cases dstr with
  | nil => exact absurd rfl hne
  | cons a as =>
    intro c hc
    simp only [List.cons_append, List.head?_cons, Option.some.injEq] at hc
    rw [← hc]
    exact hd a (List.mem_cons_self _ _)

theorem notInfixPromptShape {p a dstr m y : List Char} (hne : p ≠ [])
    (hpnd : ∀ c ∈ p, c.isDigit = false)
    (hdne : dstr ≠ []) (hdd : ∀ c ∈ dstr, c.isDigit = true)
    (ha : ¬ p <:+: a)
    (hm : ¬ p <:+: m) (hsm : ∀ i, i < p.length → 0 < i → ¬ (p.take i <:+ m))
    (hy : ¬ p <:+: y) :
    ¬ p <:+: a ++ (dstr ++ (m ++ y)) :=
  notInfixAppendHead ha
    (notInfixAppend (notInfixDigitFree hne hpnd hdd)
      (notInfixAppend hm hy hsm)
      (notTakeSuffixDigits hne hpnd hdd))
    (headDigitOfAppend hdne hdd)
    hpnd

theorem natDigitChar_isDigit {m : Nat} (h : m < 10) : (Nat.digitChar m).isDigit = true :=
  (by decide : ∀ k, k < 10 → (Nat.digitChar k).isDigit = true) m h

theorem toDigitsCore_digits (fuel : Nat) : ∀ (n : Nat) (acc : List Char),
    (∀ c ∈ acc, c.isDigit = true) →
    ∀ c ∈ Nat.toDigitsCore 10 fuel n acc, c.isDigit = true := by
  induction fuel with
  | zero =>
    intro n acc hacc
    simpa [ Nat.toDigitsCore] using hacc
  | succ f ih =>
    intro n acc hacc
    rw [ Nat.toDigitsCore]
    by_cases h0 : n / 10 = 0
    · simp only [h0, if_pos]
      intro c hc
      rcases List.mem_cons.mp hc with rfl | hc
      · exact natDigitChar_isDigit (Nat.mod_lt _ (by decide))
      · exact hacc c hc
    · simp only [h0, if_neg, ite_false]
      apply ih
      intro c hc
      rcases List.mem_cons.mp hc with rfl | hc
      · exact natDigitChar_isDigit (Nat.mod_lt _ (by decide))
      · exact hacc c hc

theorem natRepr_digits (n : Nat) : ∀ c ∈ (toString n).data, c.isDigit = true := by
  show ∀ c ∈ Nat.toDigitsCore 10 (n + 1) n [], c.isDigit = true
  exact toDigitsCore_digits (n + 1) n [] (by simp)

theorem toDigitsCore_ne_nil (fuel : Nat) : ∀ (n : Nat) (acc : List Char),
    acc ≠ [] → Nat.toDigitsCore 10 fuel n acc ≠ [] := by
  induction fuel with
  | zero =>
    intro n acc h
    simpa [ Nat.toDigitsCore] using h
  | succ f ih =>
    intro n acc h
    rw [ Nat.toDigitsCore]
    by_cases h0 : n / 10 = 0
    · simp [h0]
    · simp only [h0, ite_false]
      exact ih _ _ (by simp)

theorem natRepr_ne_nil (n : Nat) : (toString n).data ≠ [] := by
  show Nat.toDigitsCore 10 (n + 1) n [] ≠ []
  rw [ Nat.toDigitsCore]
  by_cases h0 : n / 10 = 0
  · simp [h0]
  · simp only [h0, ite_false]
    exact toDigitsCore_ne_nil _ _ _ (by simp)

theorem digitChar_isDigit (n : Nat) : (digitChar n).isDigit = true := by
  show (Char.ofNat (48 + n % 10)).isDigit = true
  exact (by decide : ∀ m, m < 10 → (Char.ofNat (48 + m)).isDigit = true) _
    (Nat.mod_lt _ (by decide))

theorem digitVal_digitChar (n : Nat) : digitVal (digitChar n) = n % 10 := by
  show digitVal (Char.ofNat (48 + n % 10)) = n % 10
  exact (by decide : ∀ m, m < 10 → digitVal (Char.ofNat (48 + m)) = m) _
    (Nat.mod_lt _ (by decide))

theorem daysInMonth_le (y m : Nat) : daysInMonth y m ≤ 31 := by
  unfold daysInMonth
  split
  · split <;> decide
  · split <;> decide

theorem validB_bounds {d : PDate} (h : d.validB = true) :
    1 ≤ d.year ∧ d.year ≤ 9999 ∧ 1 ≤ d.month ∧ d.month ≤ 12 ∧ 1 ≤ d.day ∧ d.day ≤ 31 := by
  have h31 := daysInMonth_le d.year d.month
  simp only [PDate.validB, Bool.and_eq_true, decide_eq_true_eq] at h
  omega

theorem parseYmd_ymdString {sep : Char} (d : PDate) (hv : d.validB = true) :
    parseYmd sep (ymdString sep d) = some d := by
  obtain ⟨y, m, dy⟩ := d
  obtain ⟨hy1, hy2, hm1, hm2, hd1, hd2⟩ := validB_bounds hv
  have hy2' : y ≤ 9999 := hy2
  have hm2' : m ≤ 12 := hm2
  have hd2' : dy ≤ 31 := hd2
  show parseYmdList sep [digitChar (y / 1000), digitChar (y / 100), digitChar (y / 10),
    digitChar y, sep, digitChar (m / 10), digitChar m, sep,
    digitChar (dy / 10), digitChar dy] = some ⟨y, m, dy⟩
  rw [parseYmdList]
  simp only [beq_self_eq_true, digitChar_isDigit, Bool.and_true, Bool.true_and, if_pos,
    digitVal_digitChar]
  have ey : ((y / 1000 % 10 * 10 + y / 100 % 10) * 10 + y / 10 % 10) * 10 + y % 10 = y := by
    omega
  have em : m / 10 % 10 * 10 + m % 10 = m := by omega
  have ed : dy / 10 % 10 * 10 + dy % 10 = dy := by omega
  rw [ey, em, ed, hv]
  simp

theorem parseYmd_wrongSep {sep sep' : Char} (d : PDate) (h : (sep == sep') = false) :
    parseYmd sep' (ymdString sep d) = none := by
  obtain ⟨y, m, dy⟩ := d
  show parseYmdList sep' [digitChar (y / 1000), digitChar (y / 100), digitChar (y / 10),
    digitChar y, sep, digitChar (m / 10), digitChar m, sep,
    digitChar (dy / 10), digitChar dy] = none
  rw [parseYmdList]
  simp [h]

theorem normalizeExpiry_isoDate {d : PDate} (hv : d.validB = true) :
    normalizeExpiry (.vstr (dateStr d)) = .ok (.vdate d) := by
  have h : fromisoformat (dateStr d) = some d := parseYmd_ymdString d hv
  simp [normalizeExpiry, h]

theorem normalizeExpiry_generic {d : PDate} (hv : d.validB = true) :
    normalizeExpiry (.vstr (ymdString '/' d)) = .ok (.vdate d) := by
  have h1 : fromisoformat (ymdString '/' d) = none := parseYmd_wrongSep d (by decide)
  have h2 : to_datetime (ymdString '/' d) = some ⟨d, 0, 0, 0⟩ := by
    show (parseYmd '/' (ymdString '/' d)).map _ = _
    rw [parseYmd_ymdString d hv]
    rfl
  simp [normalizeExpiry, h1, h2]

theorem normalizeExpiry_passthrough {e : ExpVal} (h : e.isStrOrTs = false) :
    normalizeExpiry e = .ok e := by
  cases e <;> simp_all [ExpVal.isStrOrTs, normalizeExpiry]

theorem normalizeItem_encode {r : Item} {d : PDate} (hexp : r.expiry = .vdate d)
    (hv : d.validB = true) : normalizeItem (encodeItem r) = .ok r := by
  have h1 : encodeItem r = { r with expiry := .vstr (dateStr d) } := by
    rw [encodeItem, hexp]
    rfl
  rw [h1, normalizeItem]
  dsimp only
  rw [normalizeExpiry_isoDate hv]
  show Except.ok { r with expiry := ExpVal.vdate d } = Except.ok r
  rw [← hexp]

theorem infixSelf {α : Type} (p : List α) : p <:+: p := ⟨[], [], by simp⟩

theorem infix_joinLines {f : Item → String} {inv : List Item} {r : Item} (h : r ∈ inv) :
    (f r).data <:+: (joinLines (inv.map f)).data := by
  induction inv with
  | nil => cases h
  | cons a as ih =>
    rcases List.mem_cons.mp h with rfl | h
    · cases as with
      | nil => exact infixSelf _
      | cons b bs =>
        show (f r).data <:+: (f r ++ "\n" ++ joinLines ((b :: bs).map f)).data
        rw [strDataAppend, strDataAppend]
        exact infixExtendRight _ (infixExtendRight _ (infixSelf _))
    · cases as with
      | nil => cases h
      | cons b bs =>
        show (f r).data <:+: (f a ++ "\n" ++ joinLines ((b :: bs).map f)).data
        rw [strDataAppend]
        exact infixExtendLeft _ (ih h)

theorem prompt_data (inv : List Item) (days : Nat) (strict : Bool) :
    (prompt inv days strict).data =
      promptHead.data ++ ((toString days).data ++
        ((promptMid ++ (if strict then strictClause else addClause) ++ promptTail).data ++
          (inv_text inv).data)) := by
  simp [prompt, strDataAppend, List.append_assoc]

theorem prompt_contains_invLine (inv : List Item) (days : Nat) (strict : Bool)
    {r : Item} (h : r ∈ inv) : containsStr (prompt inv days strict) (invLine r) := by
  unfold containsStr
  rw [prompt_data]
  exact infixExtendLeft _ (infixExtendLeft _ (infixExtendLeft _ (infix_joinLines h)))

theorem prompt_contains_clause (inv : List Item) (days : Nat) (strict : Bool) :
    containsStr (prompt inv days strict) (if strict then strictClause else addClause) := by
  unfold containsStr
  have h1 : (if strict then strictClause else addClause).data <:+:
      (promptMid ++ (if strict then strictClause else addClause) ++ promptTail).data := by
    rw [strDataAppend, strDataAppend]
    exact infixExtendRight _ (infixExtendLeft _ (infixSelf _))
  rw [prompt_data]
  exact infixExtendLeft _ (infixExtendLeft _ (infixExtendRight _ h1))

theorem prompt_not_contains {inv : List Item} {days : Nat} {strict : Bool} {other : String}
    (hne : other.data ≠ []) (hnd : ∀ c ∈ other.data, c.isDigit = false)
    (hhead : ¬ other.data <:+: promptHead.data)
    (hmid : ¬ other.data <:+:
      (promptMid ++ (if strict then strictClause else addClause) ++ promptTail).data)
    (hsmid : ∀ i, i < other.data.length → 0 < i →
      ¬ (other.data.take i <:+
        (promptMid ++ (if strict then strictClause else addClause) ++ promptTail).data))
    (hinv : ¬ other.data <:+: (inv_text inv).data) :
    ¬ containsStr (prompt inv days strict) other := by
  unfold containsStr
  rw [prompt_data]
  exact notInfixPromptShape hne hnd (natRepr_ne_nil days) (natRepr_digits days)
    hhead hmid hsmid hinv

/-! ### The claims -/

/-- Claim C1: for every valid Inventory — each record having a non-empty
name, a numeric quantity, enumerated unit and category, and a calendar-date
expiry — `load_inventory (save_inventory inv)` returns exactly `inv`,
field-for-field, with dates equal at day granularity and record order
preserved. -/
theorem c1_save_load_roundtrip (inv : List Item) (h : ∀ r ∈ inv, validItem r) :
    load_inventory (save_inventory inv) = .ok inv := by
  show loadItems (inv.map encodeItem) = .ok inv
  induction inv with
  | nil => rfl
  | cons r rs ih =>
    obtain ⟨-, -, -, he⟩ := h r (List.mem_cons_self r rs)
    have hd : ∃ d, r.expiry = ExpVal.vdate d ∧ d.validB = true := by
      revert he
      cases hexp : r.expiry <;> intro he <;> simp [expiryIsValidDate] at he
      exact ⟨_, rfl, he⟩
    obtain ⟨d, hexp, hv⟩ := hd
    have h1 := normalizeItem_encode hexp hv
    have h2 : loadItems (rs.map encodeItem) = .ok rs :=
      ih (fun x hx => h x (List.mem_cons_of_mem _ hx))
    simp [loadItems, h1, h2]

/-- Witness for C1 at the one-record scenario inventory. -/
theorem c1_witness :
    (∀ r ∈ [chickenItem], validItem r) ∧
    load_inventory (save_inventory [chickenItem]) = .ok [chickenItem] :=
  ⟨by decide, c1_save_load_roundtrip [chickenItem] (by decide)⟩

/-- Claim C2: a stored expiry denoting calendar date `d` in any of the three
input shapes — ISO text (`str(date)`), generic parseable text (the modelled
slash form), or a timestamp value whose date component is `d` — normalizes
on load to the same pure calendar date `d`, with no time-of-day component. -/
theorem c2_date_normalization (d : PDate) (hv : d.valid) (t : PdTimestamp)
    (ht : t.date = d) :
    normalizeExpiry (.vstr (dateStr d)) = .ok (.vdate d) ∧
    normalizeExpiry (.vstr (ymdString '/' d)) = .ok (.vdate d) ∧
    normalizeExpiry (.vts t) = .ok (.vdate d) := by
  refine ⟨normalizeExpiry_isoDate hv, normalizeExpiry_generic hv, ?_⟩
  rw [show normalizeExpiry (.vts t) = .ok (.vdate t.date) from rfl, ht]

/-- Witness for C2 at 2025-06-01 (timestamp 2025-06-01 12:30:00). -/
theorem c2_witness :
    PDate.valid ⟨2025, 6, 1⟩ ∧
    (normalizeExpiry (.vstr (dateStr ⟨2025, 6, 1⟩)) = .ok (.vdate ⟨2025, 6, 1⟩) ∧
     normalizeExpiry (.vstr (ymdString '/' ⟨2025, 6, 1⟩)) = .ok (.vdate ⟨2025, 6, 1⟩) ∧
     normalizeExpiry (.vts ⟨⟨2025, 6, 1⟩, 12, 30, 0⟩) = .ok (.vdate ⟨2025, 6, 1⟩)) :=
  ⟨by decide, c2_date_normalization ⟨2025, 6, 1⟩ (by decide) ⟨⟨2025, 6, 1⟩, 12, 30, 0⟩ rfl⟩

/-- Claim C3: a backing file containing a record whose expiry text neither
the strict ISO rule nor the fallback generic rule can parse makes the whole
load fail with a `MalformedRecordError`: the record is not silently dropped
and no loaded Inventory is returned. -/
theorem c3_malformed_record_aborts_load (l : List Item) (r : Item) (s : String)
    (hmem : r ∈ l) (hexp : r.expiry = .vstr s)
    (hiso : fromisoformat s = none) (hgen : to_datetime s = none) :
    ∃ e, load_inventory (.content l) = .error e := by
  have hbad : normalizeItem r = .error ⟨s⟩ := by
    rw [normalizeItem, hexp]
    simp [normalizeExpiry, hiso, hgen, Except.map]
  show ∃ e, loadItems l = .error e
  induction l with
  | nil => cases hmem
  | cons a as ih =>
    rcases List.mem_cons.mp hmem with rfl | hmem'
    · exact ⟨⟨s⟩, by simp [loadItems, hbad]⟩
    · cases hna : normalizeItem a with
      | error e => exact ⟨e, by simp [loadItems, hna]⟩
      | ok a' =>
        obtain ⟨e, he⟩ := ih hmem'
        exact ⟨e, by simp [loadItems, hna, he]⟩

/-- Witness for C3: a file with one record whose expiry is `"not-a-date"`. -/
theorem c3_witness :
    ∃ e, load_inventory (.content [badDateItem]) = .error e :=
  c3_malformed_record_aborts_load [badDateItem] badDateItem "not-a-date"
    (by simp) rfl (by decide) (by decide)

/-- Claim C4 counterexample: submitting the add-ingredient form with the
whitespace-only name `"   "` does NOT leave the Inventory unchanged — the
guard `if submitted and name:` tests the untrimmed name, which is truthy, so
a record (with name stripped to `""`) is appended. -/
theorem c4_counterexample :
    add_ingredient [] "   " (.intQ 1) "g" ⟨2025, 6, 1⟩ "菜" ≠ [] := by decide

/-- Claim C4 (amended): adding with the empty name `""` is a silent no-op
that leaves the Inventory unchanged; adding with the whitespace-only name
`"   "` appends a record whose stored (stripped) name is the empty string.
Neither case raises an error. -/
theorem c4_add_empty_or_whitespace_name (inv : List Item) (q : Qty) (u : String)
    (e : PDate) (c : String) :
    add_ingredient inv "" q u e c = inv ∧
    add_ingredient inv "   " q u e c =
      inv ++ [{ name := "", quantity := q, unit := u, expiry := .vdate e, category := c }] := by
  constructor
  · rw [add_ingredient, if_pos rfl]
  · rw [add_ingredient, if_neg (by decide)]
    have hs : pyStrip "   " = "" := by decide
    rw [hs]

set_option maxRecDepth 1000000 in
/-- Claim C5 counterexample: the containment of the additional-ingredients
instruction is NOT equivalent to `strict = false` for every inventory
snapshot — with `strict = true` and an inventory whose item name is the
clause text itself, the built prompt contains the clause. -/
theorem c5_counterexample :
    ¬ (containsStr
        (prompt [{ name := addClause, quantity := .intQ 1, unit := "g",
                   expiry := .vdate ⟨2025, 6, 1⟩, category := "肉" }] 1 true)
        addClause ↔ (true = false)) := by
  intro hiff
  have h1 : addClause.data <:+:
      (invLine { name := addClause, quantity := .intQ 1, unit := "g",
                 expiry := .vdate ⟨2025, 6, 1⟩, category := "肉" }).data := by
    decide
  have h2 := prompt_contains_invLine
    [{ name := addClause, quantity := .intQ 1, unit := "g",
       expiry := .vdate ⟨2025, 6, 1⟩, category := "肉" }] 1 true
    (List.mem_singleton.mpr rfl)
  exact absurd (hiff.mp (h1.trans h2)) (by decide)

set_option maxRecDepth 1000000 in
/-- Claim C5 (amended): for every inventory snapshot whose rendered listing
contains neither clause text, every day count, and every strictness flag,
the built prompt contains the do-not-exceed-stock instruction iff `strict`
is true, and the additional-ingredients-needed instruction iff `strict` is
false. -/
theorem c5_strictness_clause_iff (inv : List Item) (days : Nat) (strict : Bool)
    (h1 : ¬ containsStr (inv_text inv) strictClause)
    (h2 : ¬ containsStr (inv_text inv) addClause) :
    (containsStr (prompt inv days strict) strictClause ↔ strict = true) ∧
    (containsStr (prompt inv days strict) addClause ↔ strict = false) := by
  cases strict with
  | true =>
    constructor
    · refine iff_of_true ?_ rfl
      simpa using prompt_contains_clause inv days true
    · refine iff_of_false ?_ (by decide)
      exact prompt_not_contains (by decide) (by decide) (by decide) (by decide)
        (by decide) h2
  | false =>
    constructor
    · refine iff_of_false ?_ (by decide)
      exact prompt_not_contains (by decide) (by decide) (by decide) (by decide)
        (by decide) h1
    · refine iff_of_true ?_ rfl
      simpa using prompt_contains_clause inv days false

set_option maxRecDepth 1000000 in
/-- Witness for C5 (amended) at the scenario inventory, one day, strict. -/
theorem c5_witness :
    (¬ containsStr (inv_text [chickenItem]) strictClause) ∧
    (¬ containsStr (inv_text [chickenItem]) addClause) ∧
    ((containsStr (prompt [chickenItem] 1 true) strictClause ↔ true = true) ∧
     (containsStr (prompt [chickenItem] 1 true) addClause ↔ true = false)) :=
  ⟨by decide, by decide, c5_strictness_clause_iff [chickenItem] 1 true (by decide) (by decide)⟩

/-- Claim C6: every inventory item is rendered into the prompt as a line
`- name (quantity+unit, category, expiring date)`; in particular, for the
scenario inventory holding the single record 鸡胸肉 / 300 g / 肉 / 2025-06-01
with one day and strict mode, the output contains the literal listing line. -/
theorem c6_prompt_renders_inventory_lines :
    (∀ (inv : List Item) (days : Nat) (strict : Bool) (r : Item), r ∈ inv →
      containsStr (prompt inv days strict) (invLine r)) ∧
    containsStr (prompt [chickenItem] 1 true) "- 鸡胸肉 (300g, 肉, expiring 2025-06-01)" := by
  refine ⟨fun inv days strict r h => prompt_contains_invLine inv days strict h, ?_⟩
  have h := prompt_contains_invLine [chickenItem] 1 true (List.mem_singleton.mpr rfl)
  have he : invLine chickenItem = "- 鸡胸肉 (300g, 肉, expiring 2025-06-01)" := by decide
  rwa [he] at h

/-- Witness for C6's general part at a two-record inventory. -/
theorem c6_witness :
    containsStr (prompt [chickenItem, badDateItem] 2 false) (invLine badDateItem) :=
  c6_prompt_renders_inventory_lines.1 [chickenItem, badDateItem] 2 false badDateItem
    (by simp)

/-- Claim C7: the prompt builder is deterministic — the built text is a pure
function of the inventory snapshot, the day count and the strictness flag,
so two runs with identical arguments yield byte-identical text. -/
theorem c7_prompt_deterministic (inv₁ inv₂ : List Item) (d₁ d₂ : Nat) (s₁ s₂ : Bool)
    (hi : inv₁ = inv₂) (hd : d₁ = d₂) (hs : s₁ = s₂) :
    prompt inv₁ d₁ s₁ = prompt inv₂ d₂ s₂ := by
  rw [hi, hd, hs]

/-- Witness for C7 at the scenario arguments. -/
theorem c7_witness : prompt [chickenItem] 3 false = prompt [chickenItem] 3 false :=
  c7_prompt_deterministic [chickenItem] [chickenItem] 3 3 false false rfl rfl rfl

/-- Claim C8: when the backing file is absent, or exists but is empty,
`load_inventory` returns the empty Inventory and raises no error. -/
theorem c8_load_absent_or_empty :
    load_inventory .absent = .ok [] ∧ load_inventory .empty = .ok [] := ⟨rfl, rfl⟩

/-- Claim C9: for every failing generation request (the exception's message
covering invalid credentials and any transport, authentication or
service-side failure), the handler returns the session state unchanged —
the Inventory is untouched — and surfaces an error value carrying the
underlying message instead of raising past its boundary. -/
theorem c9_gateway_failure_frame (st : AppState) (days : Nat) (strict : Bool)
    (call : String → CallOutcome) :
    (generate_plan st days strict call).1 = st ∧
    ∀ msg, call (prompt st.inventory days strict) = .failure msg →
      (generate_plan st days strict call).2 = .errorBox ("OpenAI 调用失败：" ++ msg) := by
  constructor
  · cases hc : call (prompt st.inventory days strict) <;> simp [generate_plan, hc]
  · intro msg hmsg
    simp [generate_plan, hmsg]

/-- Witness for C9 with an invalid-credentials failure. -/
theorem c9_witness :
    (generate_plan ⟨[chickenItem], some "sk-invalid"⟩ 1 true
        (fun _ => .failure "Incorrect API key provided")).1 = ⟨[chickenItem], some "sk-invalid"⟩ ∧
    (generate_plan ⟨[chickenItem], some "sk-invalid"⟩ 1 true
        (fun _ => .failure "Incorrect API key provided")).2 =
      .errorBox ("OpenAI 调用失败：" ++ "Incorrect API key provided") :=
  ⟨(c9_gateway_failure_frame _ _ _ _).1, (c9_gateway_failure_frame _ _ _ _).2 _ rfl⟩

/-- Claim C10: records whose expiry is null/absent or of a type other than
text or timestamp (for example a number) are passed through `load_inventory`
unchanged — no normalization, no error — so the loaded Inventory may contain
records whose expiry is not a calendar date. -/
theorem c10_load_passes_through_nondate_expiry (l : List Item)
    (h : ∀ r ∈ l, r.expiry.isStrOrTs = false) :
    load_inventory (.content l) = .ok l := by
  show loadItems l = .ok l
  induction l with
  | nil => rfl
  | cons r rs ih =>
    have h1 : normalizeItem r = .ok r := by
      rw [normalizeItem, normalizeExpiry_passthrough (h r (List.mem_cons_self r rs))]
      rfl
    have h2 := ih (fun x hx => h x (List.mem_cons_of_mem _ hx))
    simp [loadItems, h1, h2]

/-- Witness for C10: a file holding a numeric expiry and a null expiry. -/
theorem c10_witness :
    (∀ r ∈ oddInventory, r.expiry.isStrOrTs = false) ∧
    load_inventory (.content oddInventory) = .ok oddInventory :=
  ⟨by decide, c10_load_passes_through_nondate_expiry oddInventory (by decide)⟩
